import Mathlib

/-!
Verification of the ORS/SER financial dashboard (src/app.py).

The program is a Streamlit dashboard over a SQLite database with two tables
(uploads, fact_capital).  We shallowly embed the two layers that carry the
logic:

* the Store/Ingestor layer: an explicit `DB` state, with `save_upload`,
  `load_data`, `get_uploads`, `delete_upload` translated from the SQL +
  pandas code.  SQLite columns are dynamically typed, and `save_upload`
  inserts spreadsheet cells without any coercion, so cell/column values are
  modelled by the sum type `Cell` (number or text).  The single
  `conn.commit()` at the end of `save_upload` (with the Python sqlite3
  rollback-on-close semantics for uncommitted changes) is modelled by
  returning `Except`: on an error no new state is produced, and `commit`
  maps an error back to the pre-state.

* the Reporter layer: the filter / group-by / KPI pipeline that the script
  runs on the loaded DataFrame (`df_filtered`, `df_grouped`,
  `calculate_kpis`, the chart series).  Monetary fields are modelled by ℚ
  and dates by ℤ (only their ordering and equality matter).  pandas
  `sort_values` and the sorted group keys of `groupby` are modelled by
  insertion sorts, which are stable like the orders the claims depend on.
-/

namespace ORS

/-- A dynamically typed value: a spreadsheet cell, or a value stored in a
SQLite column (SQLite does not enforce the declared column type). -/
inductive Cell where
  | num (q : ℚ)
  | text (s : String)
deriving Repr, DecidableEq

/-- Python `str()` applied to a cell, as in `str(row["Fecha"])`. -/
def cellStr : Cell → String
  | .num q => toString q
  | .text s => s

/-- A row of the `uploads` table. -/
structure Upload where
  upload_id : Nat
  filename : String
  timestamp : String
deriving Repr, DecidableEq

/-- A row of the `fact_capital` table. -/
structure FactRow where
  id : Nat
  fecha : String
  centro : Cell
  concepto : Cell
  inicial : Cell
  aportacion : Cell
  retiro : Cell
  rendimiento : Cell
  saldo : Cell
  upload_id : Nat
deriving Repr, DecidableEq

/-- The persistent state `data.db`: the two tables in insertion order plus
the AUTOINCREMENT counters for the surrogate keys. -/
structure DB where
  uploads : List Upload
  facts : List FactRow
  next_upload_id : Nat
  next_fact_id : Nat
deriving Repr, DecidableEq

/-- The state right after `init_db` on a fresh file: empty tables,
AUTOINCREMENT keys starting at 1. -/
def emptyDB : DB := ⟨[], [], 1, 1⟩

/-- An uploaded spreadsheet as pandas `read_excel` sees it: a header row
and data rows of cells (positional under the headers). -/
structure Sheet where
  headers : List String
  rows : List (List Cell)
deriving Repr, DecidableEq

/-- A runtime failure raised during ingestion.  `keyError c` models the
Python `KeyError` raised by `row[c]` when column `c` is absent. -/
inductive Fault where
  | keyError (col : String)
deriving Repr, DecidableEq

/-- The column names `save_upload` reads from each spreadsheet row, in the
order the code reads them. -/
def requiredCols : List String :=
  ["Fecha", "Centro", "Concepto", "Inicial", "Aportación", "Retiro",
   "Rendimiento", "Saldo"]

/-- `row[c]` on a pandas row: a `KeyError` when the column header is
absent; otherwise the cell under that header (NaN when the row is
short, which `str()` renders as "nan"). -/
def lookupCol (headers : List String) (row : List Cell) (c : String) :
    Except Fault Cell :=
  match headers.findIdx? (fun h => h == c) with
  | none => .error (.keyError c)
  | some i => .ok (row.getD i (.text "nan"))

/-- The body of the insertion loop of `save_upload`: reads the eight
columns of one spreadsheet row (in source order) and builds the
`fact_capital` row.  Only `Fecha` is coerced, by `str()`. -/
def mapRow (headers : List String) (row : List Cell) (uid fid : Nat) :
    Except Fault FactRow :=
  match lookupCol headers row "Fecha" with
  | .error f => .error f
  | .ok fecha =>
  match lookupCol headers row "Centro" with
  | .error f => .error f
  | .ok centro =>
  match lookupCol headers row "Concepto" with
  | .error f => .error f
  | .ok concepto =>
  match lookupCol headers row "Inicial" with
  | .error f => .error f
  | .ok inicial =>
  match lookupCol headers row "Aportación" with
  | .error f => .error f
  | .ok aportacion =>
  match lookupCol headers row "Retiro" with
  | .error f => .error f
  | .ok retiro =>
  match lookupCol headers row "Rendimiento" with
  | .error f => .error f
  | .ok rendimiento =>
  match lookupCol headers row "Saldo" with
  | .error f => .error f
  | .ok saldo =>
    .ok ⟨fid, cellStr fecha, centro, concepto, inicial, aportacion,
         retiro, rendimiento, saldo, uid⟩

/-- The `for _, row in df.iterrows()` loop: maps the data rows one by one,
assigning consecutive fact ids; stops at the first raised fault. -/
def insertRows (headers : List String) (uid : Nat) :
    Nat → List (List Cell) → Except Fault (List FactRow)
  | _, [] => .ok []
  | fid, r :: rs =>
    match mapRow headers r uid fid with
    | .error f => .error f
    | .ok fr =>
      match insertRows headers uid (fid + 1) rs with
      | .error f => .error f
      | .ok rest => .ok (fr :: rest)

/-- `save_upload`: inserts the Upload row, then one fact row per data row,
with a single `conn.commit()` at the end.  An exception anywhere in the
loop escapes before the commit, so no state change becomes durable: this
is modelled by returning `Except.error` with no new state. -/
def save_upload (db : DB) (filename timestamp : String) (sheet : Sheet) :
    Except Fault DB :=
  let uid := db.next_upload_id
  match insertRows sheet.headers uid db.next_fact_id sheet.rows with
  | .error f => .error f
  | .ok newFacts =>
      .ok { uploads := db.uploads ++ [⟨uid, filename, timestamp⟩],
            facts := db.facts ++ newFacts,
            next_upload_id := uid + 1,
            next_fact_id := db.next_fact_id + sheet.rows.length }

/-- The durable state after an operation returning `Except`: the new state
when the commit was reached, the unchanged pre-state otherwise (Python
sqlite3 rolls an uncommitted connection back). -/
def commit (db : DB) (r : Except Fault DB) : DB :=
  match r with
  | .ok next => next
  | .error _ => db

/-- `load_data`: `SELECT * FROM fact_capital`, a full scan in insertion
order (the date re-parse does not change which rows are returned). -/
def load_data (db : DB) : List FactRow := db.facts

/-- Insertion step for `ORDER BY upload_id DESC`. -/
def insertUploadDesc (u : Upload) : List Upload → List Upload
  | [] => [u]
  | v :: vs =>
      if v.upload_id ≤ u.upload_id then u :: v :: vs
      else v :: insertUploadDesc u vs

/-- Sorting the `uploads` table by `upload_id` descending. -/
def sortUploadsDesc (l : List Upload) : List Upload :=
  l.foldr insertUploadDesc []

/-- `get_uploads`: `SELECT * FROM uploads ORDER BY upload_id DESC`. -/
def get_uploads (db : DB) : List Upload := sortUploadsDesc db.uploads

/-- `delete_upload`: the two DELETE statements (facts of the batch, then
the upload row) followed by one commit. -/
def delete_upload (db : DB) (uid : Nat) : DB :=
  { db with
    facts := db.facts.filter (fun r => r.upload_id != uid),
    uploads := db.uploads.filter (fun u => u.upload_id != uid) }

/-- States reachable through the store operations: upload ids strictly
increase in insertion order (AUTOINCREMENT), every id is below the next
counter, and every fact row points at an existing upload. -/
def WF (db : DB) : Prop :=
  db.uploads.Pairwise (fun a b => a.upload_id < b.upload_id) ∧
  (∀ u ∈ db.uploads, u.upload_id < db.next_upload_id) ∧
  (∀ r ∈ db.facts, r.upload_id ∈ db.uploads.map Upload.upload_id)

/-! ## Reporter layer

The script loads the fact table into a DataFrame and runs the filter /
group / KPI pipeline on it.  For this layer a row is well typed: a date
(ℤ, only order matters), the two grouping dimensions, and five rational
monetary fields. -/

/-- A DataFrame row as the Reporter sees it after `load_data`. -/
structure Row where
  fecha : Int
  centro : String
  concepto : String
  inicial : ℚ
  aportacion : ℚ
  retiro : ℚ
  rendimiento : ℚ
  saldo : ℚ
deriving Repr, DecidableEq

/-- The sidebar sentinel for "all subcategories". -/
def allConcepto : String := "Todos"

/-- `df[df["centro"] == centro]`. -/
def filterCentro (df : List Row) (centro : String) : List Row :=
  df.filter (fun r => r.centro == centro)

/-- The conditional subcategory filter: applied only when the selection is
not the sentinel. -/
def filterConcepto (df : List Row) (concepto : String) : List Row :=
  if concepto != allConcepto then df.filter (fun r => r.concepto == concepto)
  else df

/-- The date-range filter, both endpoints inclusive. -/
def filterDates (df : List Row) (dateStart dateEnd : Int) : List Row :=
  df.filter (fun r => decide (dateStart ≤ r.fecha) && decide (r.fecha ≤ dateEnd))

/-- `df_filtered`: the three sidebar filters in source order. -/
def df_filtered (df : List Row) (centro concepto : String)
    (dateStart dateEnd : Int) : List Row :=
  filterDates (filterConcepto (filterCentro df centro) concepto)
    dateStart dateEnd

/-- Inserts a date into a strictly ascending list of dates, keeping it
strictly ascending (a duplicate is dropped). -/
def insertDate (d : Int) : List Int → List Int
  | [] => [d]
  | x :: xs =>
      if d < x then d :: x :: xs
      else if d = x then x :: xs
      else x :: insertDate d xs

/-- The distinct dates of a row set in ascending order: the group keys of
`groupby("fecha")`, which pandas sorts ascending. -/
def sortedDates (df : List Row) : List Int :=
  df.foldr (fun r acc => insertDate r.fecha acc) []

/-- An aggregated row: the columns of `df_grouped` after
`groupby("fecha").agg(...).reset_index()` (the grouping dimensions are
consumed). -/
structure GRow where
  fecha : Int
  inicial : ℚ
  aportacion : ℚ
  retiro : ℚ
  rendimiento : ℚ
  saldo : ℚ
deriving Repr, DecidableEq

/-- Sum of one monetary column over a row set. -/
def sumBy (df : List Row) (f : Row → ℚ) : ℚ := (df.map f).sum

/-- The aggregated row of one date group: the five monetary fields summed
over the rows carrying that date. -/
def groupRow (df : List Row) (d : Int) : GRow :=
  let g := df.filter (fun r => r.fecha == d)
  ⟨d, sumBy g Row.inicial, sumBy g Row.aportacion, sumBy g Row.retiro,
   sumBy g Row.rendimiento, sumBy g Row.saldo⟩

/-- `groupby("fecha").agg({five sums}).reset_index()`: one aggregated row
per distinct date, in ascending date order. -/
def groupByFecha (df : List Row) : List GRow :=
  (sortedDates df).map (groupRow df)

/-- Forgetting the grouping dimensions of an unaggregated row (the KPI
and chart code reads only the date and the five monetary columns). -/
def rowToG (r : Row) : GRow :=
  ⟨r.fecha, r.inicial, r.aportacion, r.retiro, r.rendimiento, r.saldo⟩

/-- `df_grouped`: aggregate across subcategories when the sentinel is
selected, pass rows through otherwise. -/
def df_grouped (df : List Row) (concepto : String) : List GRow :=
  if concepto == allConcepto then groupByFecha df else df.map rowToG

/-- Insertion step of the stable sort by date. -/
def insertG (a : GRow) : List GRow → List GRow
  | [] => [a]
  | x :: xs =>
      if a.fecha ≤ x.fecha then a :: x :: xs
      else x :: insertG a xs

/-- `df.sort_values("fecha")`: a stable sort by ascending date. -/
def sort_values_fecha (df : List GRow) : List GRow :=
  df.foldr insertG []

/-- Sum of one monetary column over aggregated rows. -/
def sumG (df : List GRow) (f : GRow → ℚ) : ℚ := (df.map f).sum

/-- The six KPIs returned by `calculate_kpis`. -/
structure KPIs where
  capital_inicial : ℚ
  capital_final : ℚ
  aportaciones : ℚ
  retiros : ℚ
  rendimiento_total : ℚ
  rendimiento_pct : ℚ
deriving Repr, DecidableEq

/-- `calculate_kpis`: sorts by date, takes the first `inicial` and the
last `saldo`, sums the three flow columns, and divides the total return
by the opening capital when that is positive.  `iloc[0]` on an empty
frame raises, modelled by `none`. -/
def calculate_kpis (df : List GRow) : Option KPIs :=
  match sort_values_fecha df with
  | [] => none
  | a :: l =>
      let s := a :: l
      let capital_inicial := a.inicial
      let capital_final := (s.getLast (List.cons_ne_nil a l)).saldo
      let aportes := sumG s GRow.aportacion
      let retiros := sumG s GRow.retiro
      let rendimiento_total := sumG s GRow.rendimiento
      let pct :=
        if capital_inicial > 0 then rendimiento_total / capital_inicial else 0
      some ⟨capital_inicial, capital_final, aportes, retiros,
            rendimiento_total, pct⟩

/-- The chart input: `df_plot = df_grouped.sort_values("fecha")` restricted
to the `(fecha, saldo)` columns. -/
def timeSeries (df : List GRow) : List (Int × ℚ) :=
  (sort_values_fecha df).map (fun g => (g.fecha, g.saldo))

/-- The whole render pipeline for one filter selection: filter, aggregate,
compute KPIs. -/
def computeView (df : List Row) (centro concepto : String)
    (dateStart dateEnd : Int) : Option KPIs :=
  calculate_kpis
    (df_grouped (df_filtered df centro concepto dateStart dateEnd) concepto)

/-! ## Derived notions used to state the theorems -/

/-- The source cell of a spreadsheet row under a header name (the cell
`lookupCol` returns when the header is present). -/
def cellAt (headers : List String) (row : List Cell) (c : String) : Cell :=
  match headers.findIdx? (fun h => h == c) with
  | none => .text "nan"
  | some i => row.getD i (.text "nan")

/-- The fact row ingestion builds from one spreadsheet row when every
required header is present. -/
def mappedRow (headers : List String) (row : List Cell) (uid fid : Nat) :
    FactRow :=
  ⟨fid, cellStr (cellAt headers row "Fecha"), cellAt headers row "Centro",
   cellAt headers row "Concepto", cellAt headers row "Inicial",
   cellAt headers row "Aportación", cellAt headers row "Retiro",
   cellAt headers row "Rendimiento", cellAt headers row "Saldo", uid⟩

/-- The fact rows ingestion builds from the data rows, with consecutive
ids, when every required header is present. -/
def mappedFacts (headers : List String) (uid : Nat) :
    Nat → List (List Cell) → List FactRow
  | _, [] => []
  | fid, r :: rs =>
      mappedRow headers r uid fid :: mappedFacts headers uid (fid + 1) rs

/-- The first required column (in the order the code reads them) whose
header is absent from the sheet. -/
def firstMissing (headers : List String) : Option String :=
  requiredCols.find? (fun c => (headers.findIdx? (fun h => h == c)).isNone)

/-- The tuple of stored fields of a fact row that come from the
spreadsheet (everything except the two surrogate keys). -/
def storedFields (f : FactRow) :
    String × Cell × Cell × Cell × Cell × Cell × Cell × Cell :=
  (f.fecha, f.centro, f.concepto, f.inicial, f.aportacion, f.retiro,
   f.rendimiento, f.saldo)

/-- The tuple of source cells of a spreadsheet row under the required
headers, with the date coercion `str()` applied to `Fecha`. -/
def sourceFields (headers : List String) (row : List Cell) :
    String × Cell × Cell × Cell × Cell × Cell × Cell × Cell :=
  (cellStr (cellAt headers row "Fecha"), cellAt headers row "Centro",
   cellAt headers row "Concepto", cellAt headers row "Inicial",
   cellAt headers row "Aportación", cellAt headers row "Retiro",
   cellAt headers row "Rendimiento", cellAt headers row "Saldo")

/-! ## Concrete fixtures (used by witnesses and the spec scenario) -/

/-- The 3-row spreadsheet scenario of spec section 8, as the Reporter sees
it after loading: dates 2024-01-01/02/03 encoded as 20240101..20240103. -/
def scenarioRows : List Row :=
  [⟨20240101, "A", "X", 1000, 100, 0, 0, 1100⟩,
   ⟨20240102, "A", "X", 1100, 0, 20, 70, 1150⟩,
   ⟨20240103, "A", "X", 1150, 50, 0, 0, 1200⟩]

/-- A stored state with two uploads and one fact row each. -/
def dbTwo : DB :=
  ⟨[⟨1, "a.xlsx", "2024-01-01T10:00:00"⟩, ⟨2, "b.xlsx", "2024-01-02T10:00:00"⟩],
   [⟨1, "2024-01-01", .text "A", .text "X", .num 1, .num 2, .num 3, .num 4,
     .num 5, 1⟩,
    ⟨2, "2024-01-02", .text "A", .text "Y", .num 6, .num 7, .num 8, .num 9,
     .num 10, 2⟩],
   3, 3⟩

/-- A one-row sheet with every required header present. -/
def okSheet : Sheet :=
  ⟨requiredCols,
   [[.text "2024-01-01", .text "A", .text "X", .num 1000, .num 100, .num 0,
     .num 0, .num 1100]]⟩

/-- A one-row sheet with every required header present but a malformed
(non-numeric) cell in the monetary column Aportación. -/
def malformedSheet : Sheet :=
  ⟨requiredCols,
   [[.text "2024-01-01", .text "A", .text "X", .num 1000, .text "abc",
     .num 0, .num 0, .num 1100]]⟩

/-- A one-row sheet whose header row lacks the required column Saldo. -/
def missingColSheet : Sheet :=
  ⟨["Fecha", "Centro", "Concepto", "Inicial", "Aportación", "Retiro",
    "Rendimiento"],
   [[.text "2024-01-01", .text "A", .text "X", .num 1000, .num 100, .num 0,
     .num 0]]⟩

/-- Rows used by the C2 witness: two subcategories sharing one date. -/
def wRows : List Row :=
  [⟨1, "A", "X", 1, 2, 3, 4, 5⟩, ⟨1, "A", "Y", 10, 20, 30, 40, 50⟩,
   ⟨2, "A", "X", 6, 7, 8, 9, 10⟩]

/-! ## Lemmas about the stable sort by date -/

theorem sort_values_fecha_cons (a : GRow) (l : List GRow) :
    sort_values_fecha (a :: l) = insertG a (sort_values_fecha l) := rfl

/-- pandas sort_values leaves an already date-sorted frame unchanged. -/
theorem sort_values_fecha_of_sorted (df : List GRow)
    (hs : df.Pairwise (fun a b => a.fecha ≤ b.fecha)) :
    sort_values_fecha df = df := by
  induction df with
  | nil => rfl
  | cons a l ih =>
      rw [sort_values_fecha_cons, ih hs.of_cons]
      cases l with
      | nil => rfl
      | cons x xs =>
          have hax : a.fecha ≤ x.fecha :=
            (List.pairwise_cons.mp hs).1 x (List.mem_cons_self x xs)
          simp [insertG, hax]

/-- C3: for every fact set and every filter selection, the view
computation keeps exactly the rows whose category equals the selected
category, whose subcategory equals the selected subcategory unless the
sentinel is chosen, and whose date lies in the inclusive interval
[dateStart, dateEnd]. -/
theorem claim_filter_keeps_exactly (df : List Row) (centro concepto : String)
    (dateStart dateEnd : Int) :
    df_filtered df centro concepto dateStart dateEnd =
      df.filter (fun r =>
        r.centro == centro &&
        (concepto == allConcepto || r.concepto == concepto) &&
        (decide (dateStart ≤ r.fecha) && decide (r.fecha ≤ dateEnd))) ∧
    ∀ r : Row,
      r ∈ df_filtered df centro concepto dateStart dateEnd ↔
        r ∈ df ∧ r.centro = centro ∧
        (concepto ≠ allConcepto → r.concepto = concepto) ∧
        dateStart ≤ r.fecha ∧ r.fecha ≤ dateEnd := by
  have heq : df_filtered df centro concepto dateStart dateEnd =
      df.filter (fun r =>
        r.centro == centro &&
        (concepto == allConcepto || r.concepto == concepto) &&
        (decide (dateStart ≤ r.fecha) && decide (r.fecha ≤ dateEnd))) := by
    by_cases hk : concepto = allConcepto
    · have hb : (concepto == allConcepto) = true := by simp [hk]
      simp only [df_filtered, filterConcepto, hk, bne_self_eq_false,
        Bool.false_eq_true, if_false, filterCentro, filterDates,
        List.filter_filter, hb]
      refine List.filter_congr fun r _ => ?_
      cases hc : (r.centro == centro) <;>
        cases hd : (decide (dateStart ≤ r.fecha) && decide (r.fecha ≤ dateEnd)) <;>
        simp [hc, hd]
    · have hb : (concepto == allConcepto) = false := by
        simpa using hk
      have hb2 : (concepto != allConcepto) = true := by
        simpa using hk
      simp only [df_filtered, filterConcepto, hb2, if_true, filterCentro,
        filterDates, List.filter_filter, hb]
      refine List.filter_congr fun r _ => ?_
      cases hc : (r.centro == centro) <;>
        cases hq : (r.concepto == concepto) <;>
        cases hd : (decide (dateStart ≤ r.fecha) && decide (r.fecha ≤ dateEnd)) <;>
        simp [hc, hq, hd]
  refine ⟨heq, fun r => ?_⟩
  rw [heq, List.mem_filter]
  by_cases hk : concepto = allConcepto
  · simp [hk, and_assoc]
  · simp only [Bool.and_eq_true, Bool.or_eq_true, beq_iff_eq,
      decide_eq_true_eq, hk]
    constructor
    · rintro ⟨hmem, ⟨hc, hq⟩, hd1, hd2⟩
      rcases hq with hq | hq
      · exact hq.elim
      · exact ⟨hmem, hc, fun _ => hq, hd1, hd2⟩
    · rintro ⟨hmem, hc, hq, hd1, hd2⟩
      exact ⟨hmem, ⟨hc, Or.inr (hq hk)⟩, hd1, hd2⟩

/-- Witness for C3 at a concrete row set and filter selection. -/
theorem claim_filter_keeps_exactly_witness :
    df_filtered wRows "A" "X" 1 2 =
      wRows.filter (fun r =>
        r.centro == "A" &&
        (("X" : String) == allConcepto || r.concepto == "X") &&
        (decide (1 ≤ r.fecha) && decide (r.fecha ≤ 2))) ∧
    ∀ r : Row,
      r ∈ df_filtered wRows "A" "X" 1 2 ↔
        r ∈ wRows ∧ r.centro = "A" ∧
        (("X" : String) ≠ allConcepto → r.concepto = "X") ∧
        1 ≤ r.fecha ∧ r.fecha ≤ 2 :=
  claim_filter_keeps_exactly wRows "A" "X" 1 2

/-- C4: returnPercent is totalReturn / openingCapital when
openingCapital > 0 and 0 otherwise; the division is total (guarded by
the positivity test), so the computation never raises a division
fault. -/
theorem claim_return_percent_guarded (df : List GRow) (k : KPIs)
    (h : calculate_kpis df = some k) :
    (k.capital_inicial > 0 →
       k.rendimiento_pct = k.rendimiento_total / k.capital_inicial) ∧
    (k.capital_inicial ≤ 0 → k.rendimiento_pct = 0) := by
  cases hs : sort_values_fecha df with
  | nil => simp [calculate_kpis, hs] at h
  | cons a l =>
      simp only [calculate_kpis, hs, Option.some.injEq] at h
      subst h
      constructor
      · intro hpos
        simp only at hpos ⊢
        rw [if_pos hpos]
      · intro hnp
        simp only at hnp ⊢
        rw [if_neg (not_lt.mpr hnp)]

/-- Witness for C4 at a concrete one-row frame. -/
theorem claim_return_percent_guarded_witness :
    calculate_kpis [(⟨1, 100, 10, 20, 7, 110⟩ : GRow)] =
      some ⟨100, 110, 10, 20, 7, 7 / 100⟩ ∧
    (((100 : ℚ) > 0 → (7 : ℚ) / 100 = 7 / 100) ∧
     ((100 : ℚ) ≤ 0 → (7 : ℚ) / 100 = 0)) := by
  have h : calculate_kpis [(⟨1, 100, 10, 20, 7, 110⟩ : GRow)] =
      some ⟨100, 110, 10, 20, 7, 7 / 100⟩ := by
    norm_num [calculate_kpis, sort_values_fecha, insertG, sumG]
  exact ⟨h, claim_return_percent_guarded _ _ h⟩

/-- C1: on every non-empty date-sorted aggregated row set the six KPIs
are the opening balance of the first row, the closing balance of the last
row, the three column sums, and the guarded return percentage; on the
3-row scenario of spec section 8 they are 1000, 1200, 150, 20, 70 and
0.07. -/
theorem claim_kpis_from_sorted_rows :
    (∀ (df : List GRow) (hne : df ≠ [])
       (_ : df.Pairwise (fun a b => a.fecha ≤ b.fecha)),
       calculate_kpis df =
         some ⟨(df.head hne).inicial, (df.getLast hne).saldo,
               sumG df GRow.aportacion, sumG df GRow.retiro,
               sumG df GRow.rendimiento,
               if (df.head hne).inicial > 0 then
                 sumG df GRow.rendimiento / (df.head hne).inicial
               else 0⟩) ∧
    computeView scenarioRows "A" allConcepto 20240101 20240103 =
      some ⟨1000, 1200, 150, 20, 70, 7 / 100⟩ := by
  constructor
  · intro df hne hs
    obtain ⟨a, l, rfl⟩ := List.exists_cons_of_ne_nil hne
    have hsort := sort_values_fecha_of_sorted _ hs
    simp only [calculate_kpis, hsort]
    rfl
  · have h1 : df_filtered scenarioRows "A" allConcepto 20240101 20240103 =
        scenarioRows := by
      norm_num [df_filtered, filterCentro, filterConcepto, filterDates,
        scenarioRows, allConcepto]
    have h2 : df_grouped scenarioRows allConcepto =
        [⟨20240101, 1000, 100, 0, 0, 1100⟩, ⟨20240102, 1100, 0, 20, 70, 1150⟩,
         ⟨20240103, 1150, 50, 0, 0, 1200⟩] := by
      norm_num [df_grouped, allConcepto, groupByFecha, sortedDates,
        insertDate, groupRow, sumBy, scenarioRows]
    have h3 : calculate_kpis
        [(⟨20240101, 1000, 100, 0, 0, 1100⟩ : GRow),
         ⟨20240102, 1100, 0, 20, 70, 1150⟩,
         ⟨20240103, 1150, 50, 0, 0, 1200⟩] =
        some ⟨1000, 1200, 150, 20, 70, 7 / 100⟩ := by
      norm_num [calculate_kpis, sort_values_fecha, insertG, sumG,
        List.getLast]
    rw [computeView, h1, h2]
    exact h3

/-- Witness for C1 at a concrete two-row sorted frame. -/
theorem claim_kpis_from_sorted_rows_witness :
    calculate_kpis [(⟨1, 50, 2, 3, 4, 60⟩ : GRow), ⟨2, 70, 1, 1, 1, 80⟩] =
      some ⟨50, 80, 3, 4, 5, 5 / 50⟩ := by
  have h := claim_kpis_from_sorted_rows.1
    [(⟨1, 50, 2, 3, 4, 60⟩ : GRow), ⟨2, 70, 1, 1, 1, 80⟩]
    (by decide) (by decide)
  rw [h]
  norm_num [sumG, List.getLast]

/-! ## Lemmas about the group-by-date aggregation -/

theorem insertDate_eq (d x : Int) (xs : List Int) :
    insertDate d (x :: xs) =
      if d < x then d :: x :: xs
      else if d = x then x :: xs
      else x :: insertDate d xs := rfl

theorem mem_insertDate (a d : Int) (l : List Int) :
    a ∈ insertDate d l ↔ a = d ∨ a ∈ l := by
  induction l with
  | nil => simp [insertDate]
  | cons x xs ih =>
      rw [insertDate_eq]
      by_cases h1 : d < x
      · rw [if_pos h1]
        simp
      · rw [if_neg h1]
        by_cases h2 : d = x
        · rw [if_pos h2]
          subst h2
          simp only [List.mem_cons]
          tauto
        · rw [if_neg h2]
          simp only [List.mem_cons, ih]
          tauto

theorem pairwise_insertDate (d : Int) (l : List Int)
    (hl : l.Pairwise (· < ·)) : (insertDate d l).Pairwise (· < ·) := by
  induction l with
  | nil => simp [insertDate]
  | cons x xs ih =>
      obtain ⟨hx, hxs⟩ := List.pairwise_cons.mp hl
      by_cases h1 : d < x
      · simp only [insertDate, if_pos h1]
        refine List.pairwise_cons.mpr ⟨?_, hl⟩
        intro b hb
        rcases List.mem_cons.mp hb with rfl | hb
        · exact h1
        · exact lt_trans h1 (hx b hb)
      · by_cases h2 : d = x
        · simp only [insertDate, if_neg h1, if_pos h2]
          exact hl
        · simp only [insertDate, if_neg h1, if_neg h2]
          refine List.pairwise_cons.mpr ⟨?_, ih hxs⟩
          intro b hb
          rcases (mem_insertDate b d xs).mp hb with rfl | hb
          · exact lt_of_le_of_ne (not_lt.mp h1) (fun he => h2 he.symm)
          · exact hx b hb

theorem sortedDates_cons (r : Row) (rs : List Row) :
    sortedDates (r :: rs) = insertDate r.fecha (sortedDates rs) := rfl

theorem mem_sortedDates (df : List Row) (d : Int) :
    d ∈ sortedDates df ↔ d ∈ df.map Row.fecha := by
  induction df with
  | nil => simp [sortedDates]
  | cons r rs ih =>
      rw [sortedDates_cons]
      simp only [mem_insertDate, ih, List.map_cons, List.mem_cons]

theorem pairwise_sortedDates (df : List Row) :
    (sortedDates df).Pairwise (· < ·) := by
  induction df with
  | nil => simp [sortedDates]
  | cons r rs ih =>
      rw [sortedDates_cons]
      exact pairwise_insertDate _ _ ih

theorem map_fecha_groupByFecha (df : List Row) :
    (groupByFecha df).map GRow.fecha = sortedDates df := by
  rw [groupByFecha, List.map_map]
  have h : ∀ l : List Int, l.map (GRow.fecha ∘ groupRow df) = l := by
    intro l
    induction l with
    | nil => rfl
    | cons d ds ih => simp only [List.map_cons, ih]; rfl
  exact h _

/-- C2: with the sentinel subcategory the view computation groups the
filtered rows by date summing the five monetary fields, one output row
per distinct date; the resulting (date, closing_balance) series is
strictly ascending in date with no duplicates, and the computation is
deterministic (the embedding is a pure function). -/
theorem claim_group_by_date_aggregation (df : List Row) (_hne : df ≠ []) :
    ((df_grouped df allConcepto).map GRow.fecha).Pairwise (· < ·) ∧
    ((df_grouped df allConcepto).map GRow.fecha).Nodup ∧
    (∀ d : Int,
       d ∈ (df_grouped df allConcepto).map GRow.fecha ↔ d ∈ df.map Row.fecha) ∧
    (∀ g ∈ df_grouped df allConcepto,
       g.inicial = sumBy (df.filter (fun r => r.fecha == g.fecha)) Row.inicial ∧
       g.aportacion =
         sumBy (df.filter (fun r => r.fecha == g.fecha)) Row.aportacion ∧
       g.retiro = sumBy (df.filter (fun r => r.fecha == g.fecha)) Row.retiro ∧
       g.rendimiento =
         sumBy (df.filter (fun r => r.fecha == g.fecha)) Row.rendimiento ∧
       g.saldo = sumBy (df.filter (fun r => r.fecha == g.fecha)) Row.saldo) ∧
    ((timeSeries (df_grouped df allConcepto)).map Prod.fst).Pairwise (· < ·) ∧
    (∀ df2 : List Row, df2 = df →
       df_grouped df2 allConcepto = df_grouped df allConcepto) := by
  have hgr : df_grouped df allConcepto = groupByFecha df := by
    simp [df_grouped]
  have hp : ((df_grouped df allConcepto).map GRow.fecha).Pairwise (· < ·) := by
    rw [hgr, map_fecha_groupByFecha]
    exact pairwise_sortedDates df
  refine ⟨hp, hp.imp ne_of_lt, ?_, ?_, ?_, fun df2 h2 => by rw [h2]⟩
  · intro d
    rw [hgr, map_fecha_groupByFecha]
    exact mem_sortedDates df d
  · intro g hg
    rw [hgr, groupByFecha] at hg
    obtain ⟨d, _, rfl⟩ := List.mem_map.mp hg
    exact ⟨rfl, rfl, rfl, rfl, rfl⟩
  · have hple : (df_grouped df allConcepto).Pairwise
        (fun a b => a.fecha ≤ b.fecha) := by
      have := List.pairwise_map.mp hp
      exact this.imp le_of_lt
    rw [timeSeries, sort_values_fecha_of_sorted _ hple, List.map_map]
    have : (Prod.fst ∘ fun g : GRow => (g.fecha, g.saldo)) = GRow.fecha := rfl
    rw [this]
    exact hp

/-- Witness for C2 at a concrete three-row set with a duplicated date. -/
theorem claim_group_by_date_aggregation_witness :
    ((df_grouped wRows allConcepto).map GRow.fecha).Pairwise (· < ·) ∧
    ((df_grouped wRows allConcepto).map GRow.fecha).Nodup ∧
    (∀ d : Int,
       d ∈ (df_grouped wRows allConcepto).map GRow.fecha ↔
         d ∈ wRows.map Row.fecha) ∧
    (∀ g ∈ df_grouped wRows allConcepto,
       g.inicial =
         sumBy (wRows.filter (fun r => r.fecha == g.fecha)) Row.inicial ∧
       g.aportacion =
         sumBy (wRows.filter (fun r => r.fecha == g.fecha)) Row.aportacion ∧
       g.retiro =
         sumBy (wRows.filter (fun r => r.fecha == g.fecha)) Row.retiro ∧
       g.rendimiento =
         sumBy (wRows.filter (fun r => r.fecha == g.fecha)) Row.rendimiento ∧
       g.saldo =
         sumBy (wRows.filter (fun r => r.fecha == g.fecha)) Row.saldo) ∧
    ((timeSeries (df_grouped wRows allConcepto)).map Prod.fst).Pairwise (· < ·) ∧
    (∀ df2 : List Row, df2 = wRows →
       df_grouped df2 allConcepto = df_grouped wRows allConcepto) :=
  claim_group_by_date_aggregation wRows (by decide)

/-! ## Lemmas about the store -/

theorem insertUploadDesc_eq (u v : Upload) (vs : List Upload) :
    insertUploadDesc u (v :: vs) =
      if v.upload_id ≤ u.upload_id then u :: v :: vs
      else v :: insertUploadDesc u vs := rfl

theorem insertUploadDesc_perm (u : Upload) (l : List Upload) :
    (insertUploadDesc u l).Perm (u :: l) := by
  induction l with
  | nil => exact List.Perm.refl _
  | cons v vs ih =>
      rw [insertUploadDesc_eq]
      by_cases h : v.upload_id ≤ u.upload_id
      · rw [if_pos h]
      · rw [if_neg h]
        exact (ih.cons v).trans (List.Perm.swap u v vs)

theorem sortUploadsDesc_perm (l : List Upload) :
    (sortUploadsDesc l).Perm l := by
  induction l with
  | nil => exact List.Perm.refl _
  | cons u us ih => exact (insertUploadDesc_perm u _).trans (ih.cons u)

theorem pairwise_insertUploadDesc (u : Upload) (l : List Upload)
    (hl : l.Pairwise (fun a b => b.upload_id ≤ a.upload_id)) :
    (insertUploadDesc u l).Pairwise (fun a b => b.upload_id ≤ a.upload_id) := by
  induction l with
  | nil => simp [insertUploadDesc]
  | cons v vs ih =>
      obtain ⟨hv, hvs⟩ := List.pairwise_cons.mp hl
      rw [insertUploadDesc_eq]
      by_cases h : v.upload_id ≤ u.upload_id
      · rw [if_pos h]
        refine List.pairwise_cons.mpr ⟨?_, hl⟩
        intro b hb
        rcases List.mem_cons.mp hb with rfl | hb
        · exact h
        · exact le_trans (hv b hb) h
      · rw [if_neg h]
        refine List.pairwise_cons.mpr ⟨?_, ih hvs⟩
        intro b hb
        have hmem := (insertUploadDesc_perm u vs).mem_iff.mp hb
        rcases List.mem_cons.mp hmem with rfl | hb2
        · exact (not_le.mp h).le
        · exact hv b hb2

theorem pairwise_sortUploadsDesc (l : List Upload) :
    (sortUploadsDesc l).Pairwise (fun a b => b.upload_id ≤ a.upload_id) := by
  induction l with
  | nil => exact List.Pairwise.nil
  | cons u us ih => exact pairwise_insertUploadDesc u _ ih

/-- C8: listUploads returns all Upload rows, newest first: the result is a
permutation of the table and its upload ids are strictly decreasing
(ids are assigned in increasing order of recording, so the most recently
recorded upload comes first). -/
theorem claim_uploads_newest_first (db : DB) (hwf : WF db) :
    (get_uploads db).Perm db.uploads ∧
    ((get_uploads db).map Upload.upload_id).Pairwise (· > ·) := by
  refine ⟨sortUploadsDesc_perm _, ?_⟩
  have hle : ((get_uploads db).map Upload.upload_id).Pairwise
      (fun a b => b ≤ a) :=
    List.pairwise_map.mpr (pairwise_sortUploadsDesc db.uploads)
  have hnodup : ((get_uploads db).map Upload.upload_id).Nodup := by
    have h1 : (db.uploads.map Upload.upload_id).Pairwise (· < ·) :=
      List.pairwise_map.mpr hwf.1
    exact (((sortUploadsDesc_perm db.uploads).map Upload.upload_id).nodup_iff).mpr
      (h1.imp ne_of_lt)
  exact (hle.and hnodup).imp fun h => lt_of_le_of_ne h.1 (Ne.symm h.2)

/-- Witness for C8 at a concrete two-upload state. -/
theorem claim_uploads_newest_first_witness :
    (get_uploads dbTwo).Perm dbTwo.uploads ∧
    ((get_uploads dbTwo).map Upload.upload_id).Pairwise (· > ·) :=
  claim_uploads_newest_first dbTwo (by unfold WF; decide)

/-- C5: deleting a stored upload removes exactly its fact rows and its
upload row in one committed step: afterwards neither listUploads nor
loadAllFacts mentions the id, every other row survives, and the state
stays well formed (no orphaned fact rows). -/
theorem claim_delete_upload_removes (db : DB) (uid : Nat) (hwf : WF db)
    (_ : uid ∈ db.uploads.map Upload.upload_id) :
    (∀ r ∈ load_data (delete_upload db uid), r.upload_id ≠ uid) ∧
    (∀ u ∈ get_uploads (delete_upload db uid), u.upload_id ≠ uid) ∧
    (∀ r ∈ load_data db, r.upload_id ≠ uid →
       r ∈ load_data (delete_upload db uid)) ∧
    (∀ u ∈ get_uploads db, u.upload_id ≠ uid →
       u ∈ get_uploads (delete_upload db uid)) ∧
    WF (delete_upload db uid) := by
  obtain ⟨hpw, hbound, hfk⟩ := hwf
  refine ⟨?_, ?_, ?_, ?_, ?_, ?_, ?_⟩
  · intro r hr
    exact bne_iff_ne.mp (List.mem_filter.mp hr).2
  · intro u hu
    have hu2 := (sortUploadsDesc_perm _).mem_iff.mp hu
    exact bne_iff_ne.mp (List.mem_filter.mp hu2).2
  · intro r hr hne
    exact List.mem_filter.mpr ⟨hr, bne_iff_ne.mpr hne⟩
  · intro u hu hne
    have hu2 := (sortUploadsDesc_perm _).mem_iff.mp hu
    exact (sortUploadsDesc_perm _).mem_iff.mpr
      (List.mem_filter.mpr ⟨hu2, bne_iff_ne.mpr hne⟩)
  · exact List.Pairwise.sublist (List.filter_sublist _) hpw
  · intro u hu
    exact hbound u (List.mem_filter.mp hu).1
  · intro r hr
    obtain ⟨hrf, hrne⟩ := List.mem_filter.mp hr
    obtain ⟨u, hu, hui⟩ := List.mem_map.mp (hfk r hrf)
    refine List.mem_map.mpr ⟨u, List.mem_filter.mpr ⟨hu, ?_⟩, hui⟩
    exact bne_iff_ne.mpr (fun he => bne_iff_ne.mp hrne (hui ▸ he))

/-- Witness for C5: deleting upload 1 from the concrete two-upload
state. -/
theorem claim_delete_upload_removes_witness :
    (∀ r ∈ load_data (delete_upload dbTwo 1), r.upload_id ≠ 1) ∧
    (∀ u ∈ get_uploads (delete_upload dbTwo 1), u.upload_id ≠ 1) ∧
    (∀ r ∈ load_data dbTwo, r.upload_id ≠ 1 →
       r ∈ load_data (delete_upload dbTwo 1)) ∧
    (∀ u ∈ get_uploads dbTwo, u.upload_id ≠ 1 →
       u ∈ get_uploads (delete_upload dbTwo 1)) ∧
    WF (delete_upload dbTwo 1) :=
  claim_delete_upload_removes dbTwo 1 (by unfold WF; decide) (by decide)

/-- C9: deleting an absent uploadId is a fault-free no-op: both tables are
left unchanged and listUploads returns the same sequence. -/
theorem claim_delete_missing_noop (db : DB) (uid : Nat) (hwf : WF db)
    (hnot : uid ∉ db.uploads.map Upload.upload_id) :
    delete_upload db uid = db ∧
    get_uploads (delete_upload db uid) = get_uploads db := by
  have hu : db.uploads.filter (fun u => u.upload_id != uid) = db.uploads := by
    rw [List.filter_eq_self]
    intro u hu
    exact bne_iff_ne.mpr (fun he => hnot (List.mem_map.mpr ⟨u, hu, he⟩))
  have hf : db.facts.filter (fun r => r.upload_id != uid) = db.facts := by
    rw [List.filter_eq_self]
    intro r hr
    exact bne_iff_ne.mpr (fun he => hnot (he ▸ hwf.2.2 r hr))
  have heq : delete_upload db uid = db := by
    cases db
    simp only [delete_upload] at hu hf ⊢
    rw [hu, hf]
  exact ⟨heq, by rw [heq]⟩

/-- Witness for C9: deleting the absent upload id 7. -/
theorem claim_delete_missing_noop_witness :
    delete_upload dbTwo 7 = dbTwo ∧
    get_uploads (delete_upload dbTwo 7) = get_uploads dbTwo :=
  claim_delete_missing_noop dbTwo 7 (by unfold WF; decide) (by decide)

/-- C10: when save_upload raises before its single final commit, the
durable state is the unchanged pre-state, and no subsequent read sees the
tentative upload id or any fact row of the failed batch. -/
theorem claim_failed_save_invisible (db : DB) (fn ts : String) (sheet : Sheet)
    (e : Fault) (hwf : WF db)
    (herr : save_upload db fn ts sheet = .error e) :
    commit db (save_upload db fn ts sheet) = db ∧
    (∀ u ∈ get_uploads (commit db (save_upload db fn ts sheet)),
       u.upload_id ≠ db.next_upload_id) ∧
    (∀ r ∈ load_data (commit db (save_upload db fn ts sheet)),
       r.upload_id ≠ db.next_upload_id) := by
  have hc : commit db (save_upload db fn ts sheet) = db := by
    rw [herr]
    rfl
  refine ⟨hc, ?_, ?_⟩
  · intro u hu
    rw [hc] at hu
    have hu2 := (sortUploadsDesc_perm db.uploads).mem_iff.mp hu
    exact Nat.ne_of_lt (hwf.2.1 u hu2)
  · intro r hr
    rw [hc] at hr
    obtain ⟨u, hu2, hui⟩ := List.mem_map.mp (hwf.2.2 r hr)
    exact hui ▸ Nat.ne_of_lt (hwf.2.1 u hu2)

/-- Witness for C10: ingesting a sheet lacking the Saldo column into the
concrete two-upload state fails and leaves the state unchanged. -/
theorem claim_failed_save_invisible_witness :
    commit dbTwo (save_upload dbTwo "f.xlsx" "t0" missingColSheet) = dbTwo ∧
    (∀ u ∈ get_uploads (commit dbTwo
        (save_upload dbTwo "f.xlsx" "t0" missingColSheet)),
       u.upload_id ≠ dbTwo.next_upload_id) ∧
    (∀ r ∈ load_data (commit dbTwo
        (save_upload dbTwo "f.xlsx" "t0" missingColSheet)),
       r.upload_id ≠ dbTwo.next_upload_id) :=
  claim_failed_save_invisible dbTwo "f.xlsx" "t0" missingColSheet
    (.keyError "Saldo") (by unfold WF; decide) (by rfl)

/-! ## Lemmas about ingestion -/

theorem lookupCol_of_mem (headers : List String) (row : List Cell)
    (c : String) (hc : c ∈ headers) :
    lookupCol headers row c = .ok (cellAt headers row c) := by
  rw [lookupCol, cellAt]
  cases h : headers.findIdx? (fun h2 => h2 == c) with
  | none =>
      exfalso
      have := List.findIdx?_eq_none_iff.mp h c hc
      simp at this
  | some i => rfl

theorem mapRow_of_all_cols (headers : List String) (row : List Cell)
    (uid fid : Nat) (hall : ∀ c ∈ requiredCols, c ∈ headers) :
    mapRow headers row uid fid = .ok (mappedRow headers row uid fid) := by
  have h1 := lookupCol_of_mem headers row "Fecha" (hall _ (by decide))
  have h2 := lookupCol_of_mem headers row "Centro" (hall _ (by decide))
  have h3 := lookupCol_of_mem headers row "Concepto" (hall _ (by decide))
  have h4 := lookupCol_of_mem headers row "Inicial" (hall _ (by decide))
  have h5 := lookupCol_of_mem headers row "Aportación" (hall _ (by decide))
  have h6 := lookupCol_of_mem headers row "Retiro" (hall _ (by decide))
  have h7 := lookupCol_of_mem headers row "Rendimiento" (hall _ (by decide))
  have h8 := lookupCol_of_mem headers row "Saldo" (hall _ (by decide))
  simp only [mapRow, h1, h2, h3, h4, h5, h6, h7, h8]
  rfl

theorem insertRows_of_all_cols (headers : List String) (uid : Nat)
    (hall : ∀ c ∈ requiredCols, c ∈ headers) :
    ∀ (fid : Nat) (rows : List (List Cell)),
      insertRows headers uid fid rows =
        .ok (mappedFacts headers uid fid rows) := by
  intro fid rows
  induction rows generalizing fid with
  | nil => rfl
  | cons r rs ih =>
      simp only [insertRows, mapRow_of_all_cols headers r uid fid hall, ih]
      rfl

theorem mappedFacts_upload_id (headers : List String) (uid : Nat) :
    ∀ (fid : Nat) (rows : List (List Cell)) (f : FactRow),
      f ∈ mappedFacts headers uid fid rows → f.upload_id = uid := by
  intro fid rows
  induction rows generalizing fid with
  | nil =>
      intro f h
      simp [mappedFacts] at h
  | cons r rs ih =>
      intro f h
      simp only [mappedFacts] at h
      rcases List.mem_cons.mp h with rfl | h2
      · rfl
      · exact ih _ f h2

theorem mappedFacts_fields (headers : List String) (uid : Nat) :
    ∀ (fid : Nat) (rows : List (List Cell)),
      (mappedFacts headers uid fid rows).map storedFields =
        rows.map (sourceFields headers) := by
  intro fid rows
  induction rows generalizing fid with
  | nil => rfl
  | cons r rs ih =>
      simp only [mappedFacts, List.map_cons, ih]
      rfl

theorem mappedFacts_length (headers : List String) (uid : Nat) :
    ∀ (fid : Nat) (rows : List (List Cell)),
      (mappedFacts headers uid fid rows).length = rows.length := by
  intro fid rows
  induction rows generalizing fid with
  | nil => rfl
  | cons r rs ih => simp only [mappedFacts, List.length_cons, ih]

/-- C6: ingesting a sheet whose header row has all the expected columns
succeeds, and loading the facts of the new upload returns exactly one
fact row per data row, in order, whose stored fields are the source cells
(with the `str()` coercion on the date). -/
theorem claim_ingest_roundtrip (db : DB) (fn ts : String) (sheet : Sheet)
    (hwf : WF db) (hall : ∀ c ∈ requiredCols, c ∈ sheet.headers) :
    ∃ dbNew, save_upload db fn ts sheet = .ok dbNew ∧
      ((load_data dbNew).filter
          (fun r => r.upload_id == db.next_upload_id)).length =
        sheet.rows.length ∧
      ((load_data dbNew).filter
          (fun r => r.upload_id == db.next_upload_id)).map storedFields =
        sheet.rows.map (sourceFields sheet.headers) := by
  have hins := insertRows_of_all_cols sheet.headers db.next_upload_id hall
    db.next_fact_id sheet.rows
  have hfilter :
      ((db.facts ++
          mappedFacts sheet.headers db.next_upload_id db.next_fact_id
            sheet.rows).filter
        (fun r => r.upload_id == db.next_upload_id)) =
      mappedFacts sheet.headers db.next_upload_id db.next_fact_id
        sheet.rows := by
    rw [List.filter_append]
    have hold : db.facts.filter
        (fun r => r.upload_id == db.next_upload_id) = [] := by
      rw [List.filter_eq_nil_iff]
      intro r hr
      obtain ⟨u, hu, hui⟩ := List.mem_map.mp (hwf.2.2 r hr)
      simp only [beq_iff_eq]
      exact hui ▸ Nat.ne_of_lt (hwf.2.1 u hu)
    have hnew : (mappedFacts sheet.headers db.next_upload_id db.next_fact_id
          sheet.rows).filter (fun r => r.upload_id == db.next_upload_id) =
        mappedFacts sheet.headers db.next_upload_id db.next_fact_id
          sheet.rows := by
      rw [List.filter_eq_self]
      intro f hf
      simp only [beq_iff_eq]
      exact mappedFacts_upload_id sheet.headers db.next_upload_id _ _ f hf
    rw [hold, hnew, List.nil_append]
  refine ⟨{ uploads := db.uploads ++ [⟨db.next_upload_id, fn, ts⟩],
            facts := db.facts ++ mappedFacts sheet.headers db.next_upload_id
              db.next_fact_id sheet.rows,
            next_upload_id := db.next_upload_id + 1,
            next_fact_id := db.next_fact_id + sheet.rows.length },
         ?_, ?_, ?_⟩
  · simp only [save_upload, hins]
  · simp only [load_data]
    rw [hfilter, mappedFacts_length]
  · simp only [load_data]
    rw [hfilter, mappedFacts_fields]

/-- Witness for C6: ingesting the concrete well-headed one-row sheet into
the empty store. -/
theorem claim_ingest_roundtrip_witness :
    ∃ dbNew, save_upload emptyDB "w.xlsx" "t2" okSheet = .ok dbNew ∧
      ((load_data dbNew).filter
          (fun r => r.upload_id == emptyDB.next_upload_id)).length =
        okSheet.rows.length ∧
      ((load_data dbNew).filter
          (fun r => r.upload_id == emptyDB.next_upload_id)).map storedFields =
        okSheet.rows.map (sourceFields okSheet.headers) :=
  claim_ingest_roundtrip emptyDB "w.xlsx" "t2" okSheet
    (by unfold WF; decide) (by decide)

theorem findIdx_beq_eq_none_iff (headers : List String) (c : String) :
    headers.findIdx? (fun h2 => h2 == c) = none ↔ c ∉ headers := by
  rw [List.findIdx?_eq_none_iff]
  constructor
  · intro hall hc
    have := hall c hc
    simp at this
  · intro hc x hx
    exact beq_eq_false_iff_ne.mpr (fun he => hc (he ▸ hx))

/-- The insertion loop body fails with the KeyError of the first required
column whose header is absent. -/
theorem mapRow_of_firstMissing (headers : List String) (row : List Cell)
    (uid fid : Nat) (c : String) (h : firstMissing headers = some c) :
    mapRow headers row uid fid = .error (.keyError c) := by
  rw [firstMissing, requiredCols] at h
  cases h1 : headers.findIdx? (fun h2 => h2 == "Fecha") with
  | none =>
      simp only [List.find?, h1, Option.isNone_none, Option.some.injEq] at h
      subst h
      simp only [mapRow, lookupCol, h1]
  | some i1 =>
  simp only [List.find?, h1, Option.isNone_some] at h
  cases h2 : headers.findIdx? (fun h2 => h2 == "Centro") with
  | none =>
      simp only [List.find?, h2, Option.isNone_none, Option.some.injEq] at h
      subst h
      simp only [mapRow, lookupCol, h1, h2]
  | some i2 =>
  simp only [List.find?, h2, Option.isNone_some] at h
  cases h3 : headers.findIdx? (fun h2 => h2 == "Concepto") with
  | none =>
      simp only [List.find?, h3, Option.isNone_none, Option.some.injEq] at h
      subst h
      simp only [mapRow, lookupCol, h1, h2, h3]
  | some i3 =>
  simp only [List.find?, h3, Option.isNone_some] at h
  cases h4 : headers.findIdx? (fun h2 => h2 == "Inicial") with
  | none =>
      simp only [List.find?, h4, Option.isNone_none, Option.some.injEq] at h
      subst h
      simp only [mapRow, lookupCol, h1, h2, h3, h4]
  | some i4 =>
  simp only [List.find?, h4, Option.isNone_some] at h
  cases h5 : headers.findIdx? (fun h2 => h2 == "Aportación") with
  | none =>
      simp only [List.find?, h5, Option.isNone_none, Option.some.injEq] at h
      subst h
      simp only [mapRow, lookupCol, h1, h2, h3, h4, h5]
  | some i5 =>
  simp only [List.find?, h5, Option.isNone_some] at h
  cases h6 : headers.findIdx? (fun h2 => h2 == "Retiro") with
  | none =>
      simp only [List.find?, h6, Option.isNone_none, Option.some.injEq] at h
      subst h
      simp only [mapRow, lookupCol, h1, h2, h3, h4, h5, h6]
  | some i6 =>
  simp only [List.find?, h6, Option.isNone_some] at h
  cases h7 : headers.findIdx? (fun h2 => h2 == "Rendimiento") with
  | none =>
      simp only [List.find?, h7, Option.isNone_none, Option.some.injEq] at h
      subst h
      simp only [mapRow, lookupCol, h1, h2, h3, h4, h5, h6, h7]
  | some i7 =>
  simp only [List.find?, h7, Option.isNone_some] at h
  cases h8 : headers.findIdx? (fun h2 => h2 == "Saldo") with
  | none =>
      simp only [List.find?, h8, Option.isNone_none, Option.some.injEq] at h
      subst h
      simp only [mapRow, lookupCol, h1, h2, h3, h4, h5, h6, h7, h8]
  | some i8 =>
  simp only [List.find?, h8, Option.isNone_some] at h
  exact absurd h (by simp)

/-- C7 (amended): with at least one data row, a missing expected column
header aborts the ingest before the commit with the KeyError naming the
first missing required column, leaving the durable state unchanged; and
when every expected header is present the ingest commits regardless of
the cell contents, so a malformed numeric cell raises no fault (the
source has no DataFault path — the value is stored as-is). -/
theorem claim_missing_column_aborts :
    (∀ (db : DB) (fn ts : String) (sheet : Sheet), sheet.rows ≠ [] →
       (∃ c ∈ requiredCols, c ∉ sheet.headers) →
       ∃ c ∈ requiredCols, c ∉ sheet.headers ∧
         save_upload db fn ts sheet = .error (.keyError c) ∧
         commit db (save_upload db fn ts sheet) = db) ∧
    (∀ (db : DB) (fn ts : String) (sheet : Sheet),
       (∀ c ∈ requiredCols, c ∈ sheet.headers) →
       (save_upload db fn ts sheet).isOk = true) := by
  constructor
  · intro db fn ts sheet hrows hmiss
    obtain ⟨c0, hc0mem, hc0⟩ := hmiss
    have hsome : (firstMissing sheet.headers).isSome := by
      rw [firstMissing, List.find?_isSome]
      refine ⟨c0, hc0mem, ?_⟩
      rw [(findIdx_beq_eq_none_iff sheet.headers c0).mpr hc0]
      rfl
    obtain ⟨c, hc⟩ := Option.isSome_iff_exists.mp hsome
    have hcmem : c ∈ requiredCols := by
      rw [firstMissing] at hc
      exact List.mem_of_find?_eq_some hc
    have hcnone : sheet.headers.findIdx? (fun h2 => h2 == c) = none := by
      rw [firstMissing] at hc
      have := List.find?_some hc
      exact Option.isNone_iff_eq_none.mp this
    have hcnot : c ∉ sheet.headers :=
      (findIdx_beq_eq_none_iff sheet.headers c).mp hcnone
    obtain ⟨r, rs, hrr⟩ := List.exists_cons_of_ne_nil hrows
    have herr : save_upload db fn ts sheet = .error (.keyError c) := by
      simp only [save_upload, hrr, insertRows,
        mapRow_of_firstMissing sheet.headers r db.next_upload_id
          db.next_fact_id c hc]
    exact ⟨c, hcmem, hcnot, herr, by rw [herr]; rfl⟩
  · intro db fn ts sheet hall
    have hins := insertRows_of_all_cols sheet.headers db.next_upload_id hall
      db.next_fact_id sheet.rows
    simp only [save_upload, hins]
    rfl

/-- Witness for C7 (amended) at the concrete sheet lacking Saldo. -/
theorem claim_missing_column_aborts_witness :
    ∃ c ∈ requiredCols, c ∉ missingColSheet.headers ∧
      save_upload emptyDB "g.xlsx" "t1" missingColSheet =
        .error (.keyError c) ∧
      commit emptyDB (save_upload emptyDB "g.xlsx" "t1" missingColSheet) =
        emptyDB :=
  claim_missing_column_aborts.1 emptyDB "g.xlsx" "t1" missingColSheet
    (by decide) ⟨"Saldo", by decide, by decide⟩

/-- C7 counterexample: a malformed (non-numeric) cell in a monetary
column does not make the ingest fail — the upload commits and the text
value is stored as-is, so no DataFault is raised as the claim states. -/
theorem claim_malformed_cell_not_rejected :
    (save_upload emptyDB "f.xlsx" "t0" malformedSheet).isOk = true ∧
    (commit emptyDB
        (save_upload emptyDB "f.xlsx" "t0" malformedSheet)).facts.map
      FactRow.aportacion = [Cell.text "abc"] := by
  exact ⟨rfl, rfl⟩

end ORS
